import Mathlib

/-!
Shallow embedding of the monitoring/change-detection logic of the repository:
the price-drop tracker (`checkAllProducts`), the stock-availability checker
(`checkAllItems`), the auction tracker (`checkTrackedAuctions`) and the
website change detector (`hashContent`, `detectChanges`, `checkPage`).
JavaScript numbers are modelled exactly over the rationals extended with
the two infinities and NaN; `crypto.createHash("md5")` is modelled by a
full MD5 implementation; browser extraction is modelled as an explicit
`fetch` function argument (`none` = the extraction call threw).
-/

/-- Model of a JavaScript `number` as used by the monitoring scripts:
an exact rational, one of the two infinities, or NaN. -/
inductive JSNum where
  | num : ℚ → JSNum
  | posInf : JSNum
  | negInf : JSNum
  | nan : JSNum
deriving DecidableEq, Repr

namespace JSNum

/-- JavaScript `a < b` (false whenever an operand is NaN). -/
def jsLt : JSNum → JSNum → Bool
  | num a, num b => decide (a < b)
  | num _, posInf => true
  | negInf, num _ => true
  | negInf, posInf => true
  | _, _ => false

/-- JavaScript `a <= b` (false whenever an operand is NaN). -/
def jsLe : JSNum → JSNum → Bool
  | num a, num b => decide (a ≤ b)
  | num _, posInf => true
  | negInf, num _ => true
  | negInf, posInf => true
  | negInf, negInf => true
  | posInf, posInf => true
  | _, _ => false

/-- JavaScript subtraction on the extended number line. -/
def jsSub : JSNum → JSNum → JSNum
  | num a, num b => num (a - b)
  | num _, posInf => negInf
  | num _, negInf => posInf
  | posInf, num _ => posInf
  | negInf, num _ => negInf
  | posInf, negInf => posInf
  | negInf, posInf => negInf
  | _, _ => nan

/-- JavaScript division; division by zero yields a signed infinity
(or NaN for `0/0`), as in IEEE-754. -/
def jsDiv : JSNum → JSNum → JSNum
  | num a, num b =>
      if b = 0 then
        if 0 < a then posInf else if a < 0 then negInf else nan
      else num (a / b)
  | num _, posInf => num 0
  | num _, negInf => num 0
  | posInf, num b => if b < 0 then negInf else posInf
  | negInf, num b => if b < 0 then posInf else negInf
  | _, _ => nan

/-- JavaScript multiplication on the extended number line. -/
def jsMul : JSNum → JSNum → JSNum
  | num a, num b => num (a * b)
  | num a, posInf => if 0 < a then posInf else if a < 0 then negInf else nan
  | num a, negInf => if 0 < a then negInf else if a < 0 then posInf else nan
  | posInf, num b => if 0 < b then posInf else if b < 0 then negInf else nan
  | negInf, num b => if 0 < b then negInf else if b < 0 then posInf else nan
  | posInf, posInf => posInf
  | posInf, negInf => negInf
  | negInf, posInf => negInf
  | negInf, negInf => posInf
  | _, _ => nan

/-- JavaScript `Math.abs`. -/
def jsAbs : JSNum → JSNum
  | num a => num |a|
  | nan => nan
  | _ => posInf

/-- JavaScript `Math.min` (NaN-propagating). -/
def jsMin (a b : JSNum) : JSNum :=
  if a = nan ∨ b = nan then nan else if jsLe a b then a else b

/-- JavaScript `Math.max` (NaN-propagating). -/
def jsMax (a b : JSNum) : JSNum :=
  if a = nan ∨ b = nan then nan else if jsLe b a then a else b

/-- JavaScript truthiness of a number: everything except `0` and NaN. -/
def jsTruthy : JSNum → Bool
  | num a => decide (a ≠ 0)
  | nan => false
  | _ => true

/-- Whether the value is an ordinary (finite) number, i.e. neither an
infinity nor NaN. -/
def isFinite : JSNum → Bool
  | num _ => true
  | _ => false

theorem jsLt_irrefl (a : JSNum) : jsLt a a = false := by
  cases a <;> simp [jsLt]

theorem jsLe_lt_asymm {a b : JSNum} (h : jsLe a b = true) :
    jsLt b a = false := by
  cases a <;> cases b <;> simp_all [jsLe, jsLt]

end JSNum

open JSNum

/-- Digit characters of a decimal literal folded to the natural number they
denote (the semantics of `parseInt`/`parseFloat` on a digit string). -/
def digitsToNat (l : List Char) : ℕ :=
  l.foldl (fun n c => 10 * n + (c.toNat - '0'.toNat)) 0

/-- Characters matched by the character class `[\d,]` of the price regex. -/
def isPriceChar (c : Char) : Bool := c.isDigit || c = ','

/-- First match of the regex `[\d,]+\.?\d*` in the character list, as in
`priceStr.match(/[\d,]+\.?\d*/)`: the scan advances until a `[\d,]` character
is found, then takes the greedy run of `[\d,]`, an optional `.`, and a greedy
run of digits. -/
def priceMatch : List Char → Option (List Char)
  | [] => none
  | c :: rest =>
    if isPriceChar c then
      let run := (c :: rest).takeWhile isPriceChar
      let after := (c :: rest).dropWhile isPriceChar
      match after with
      | '.' :: tl => some (run ++ ['.'] ++ tl.takeWhile (·.isDigit))
      | _ => some run
    else priceMatch rest

/-- JavaScript `parseFloat` on a comma-stripped price match, which by
construction is of the shape `digits* ['.'] digits*`; an input with no
digit at all (e.g. `""` or `"."`) yields NaN. -/
def parseFloatQ (l : List Char) : JSNum :=
  let intPart := l.takeWhile (·.isDigit)
  let rest := l.drop intPart.length
  match rest with
  | '.' :: frac =>
    let fracD := frac.takeWhile (·.isDigit)
    if intPart.isEmpty && fracD.isEmpty then .nan
    else .num ((digitsToNat intPart : ℚ) + (digitsToNat fracD : ℚ) / 10 ^ fracD.length)
  | _ => if intPart.isEmpty then .nan else .num (digitsToNat intPart)

/-- Embedding of `parsePrice` (price tracker and auction tracker): first
regex match of `[\d,]+\.?\d*`, commas removed, `parseFloat` applied; `0`
when the string has no match at all. -/
def parsePrice (s : String) : JSNum :=
  match priceMatch s.toList with
  | some m => parseFloatQ (m.filter (· ≠ ','))
  | none => .num 0

theorem parseFloatQ_nonneg (l : List Char) :
    parseFloatQ l = .nan ∨ ∃ q : ℚ, parseFloatQ l = .num q ∧ 0 ≤ q := by
  unfold parseFloatQ
  dsimp only
  split
  · split
    · left; rfl
    · right; exact ⟨_, rfl, by positivity⟩
  · split
    · left; rfl
    · right; exact ⟨_, rfl, by positivity⟩

theorem parsePrice_nonneg (s : String) :
    parsePrice s = .nan ∨ ∃ q : ℚ, parsePrice s = .num q ∧ 0 ≤ q := by
  unfold parsePrice
  split
  · exact parseFloatQ_nonneg _
  · right; exact ⟨0, rfl, le_refl 0⟩

/-! ## Price Drop Tracker (`checkAllProducts`) -/

/-- One entry of a product's `priceHistory`. -/
structure PricePoint where
  price : JSNum
  timestamp : String
deriving DecidableEq, Repr

/-- Embedding of the `TrackedProduct` interface. -/
structure TrackedProduct where
  id : String
  name : String
  url : String
  targetPrice : JSNum
  priceHistory : List PricePoint
  lowestPrice : JSNum
  highestPrice : JSNum
deriving DecidableEq, Repr

/-- Embedding of the `PriceAlert` interface; `alertType` is one of the
string literals `"drop"`, `"target_reached"`, `"back_in_stock"`. -/
structure PriceAlert where
  productId : String
  productName : String
  previousPrice : JSNum
  currentPrice : JSNum
  changePercent : JSNum
  url : String
  alertType : String
deriving DecidableEq, Repr

/-- The percent-change expression of `checkAllProducts`:
`((currentPrice - previousPrice) / previousPrice) * 100`. -/
def changePercentOf (currentPrice previousPrice : JSNum) : JSNum :=
  jsMul (jsDiv (jsSub currentPrice previousPrice) previousPrice) (.num 100)

/-- The body of the `for` loop of `checkAllProducts` for one product:
`priceData` is the result of `checkPrice` (`none` models the `null` returned
when extraction threw, upon which the loop `continue`s). Returns the updated
product (mutations of `priceHistory`, `lowestPrice`, `highestPrice`) and the
alerts pushed for this product, in push order. -/
def checkProductStep (product : TrackedProduct) (priceData : Option String)
    (ts : String) : TrackedProduct × List PriceAlert :=
  match priceData with
  | none => (product, [])
  | some priceStr =>
    let currentPrice := parsePrice priceStr
    let previousPrice :=
      match product.priceHistory.getLast? with
      | some pt => pt.price
      | none => currentPrice
    let hist1 := product.priceHistory ++ [⟨currentPrice, ts⟩]
    let hist2 := if hist1.length > 100 then hist1.drop (hist1.length - 100) else hist1
    let lowest := jsMin (if jsTruthy product.lowestPrice then product.lowestPrice
                         else currentPrice) currentPrice
    let highest := jsMax (if jsTruthy product.highestPrice then product.highestPrice
                          else currentPrice) currentPrice
    let changePercent := changePercentOf currentPrice previousPrice
    let dropAlerts :=
      if jsLt currentPrice previousPrice && jsLe (.num 5) (jsAbs changePercent) then
        [⟨product.id, product.name, previousPrice, currentPrice, changePercent,
          product.url, "drop"⟩]
      else []
    let targetAlerts :=
      if jsLe currentPrice product.targetPrice && jsLt product.targetPrice previousPrice then
        [⟨product.id, product.name, previousPrice, currentPrice, changePercent,
          product.url, "target_reached"⟩]
      else []
    ({ product with priceHistory := hist2, lowestPrice := lowest, highestPrice := highest },
     dropAlerts ++ targetAlerts)

/-- Embedding of `checkAllProducts`: iterate `checkProductStep` over the
product list (extraction modelled by `fetch` on the product's URL), returning
the updated products and the accumulated alerts in order. -/
def checkAllProducts (fetch : String → Option String) (ts : String) :
    List TrackedProduct → List TrackedProduct × List PriceAlert
  | [] => ([], [])
  | p :: rest =>
    let r := checkProductStep p (fetch p.url) ts
    let rs := checkAllProducts fetch ts rest
    (r.1 :: rs.1, r.2 ++ rs.2)

/-! ## Stock Availability Checker (`checkAllItems`) -/

/-- Embedding of the zod `StockStatusSchema` object. -/
structure StockStatus where
  productName : String
  inStock : Bool
  price : Option String
  stockQuantity : Option String
  estimatedDelivery : Option String
  seller : Option String
  condition : Option String
deriving DecidableEq, Repr

/-- Embedding of the `TrackedItem` interface. -/
structure TrackedItem where
  name : String
  url : String
  retailer : String
  notifyEmail : Option String
deriving DecidableEq, Repr

/-- Embedding of the `StockAlert` interface. -/
structure StockAlert where
  item : TrackedItem
  status : StockStatus
  previouslyOutOfStock : Bool
  timestamp : String
deriving DecidableEq, Repr

/-- The module-level `previousStockState : Map<string, boolean>`, modelled as
an insertion-ordered association list with unique keys. -/
abbrev StateMap := List (String × Bool)

/-- JavaScript `Map.get` (`none` models `undefined`). -/
def mapGet (m : StateMap) (k : String) : Option Bool :=
  (List.find? (fun p => p.1 = k) m).map (·.2)

/-- JavaScript `Map.set`: overwrite the entry in place if the key exists
(keys are unique in a `Map`), else append at the end. -/
def mapSet (m : StateMap) (k : String) (v : Bool) : StateMap :=
  match m with
  | [] => [(k, v)]
  | p :: rest => if p.1 = k then (k, v) :: rest else p :: mapSet rest k v

/-- The body of the `for` loop of `checkAllItems` for one item: `res` is the
extraction outcome (`none` = `page.extract` threw, handled by the `catch`
branch which records a `null` status and leaves the state untouched).
Returns the updated state, the alerts pushed, and the status entry pushed. -/
def stockItemStep (state : StateMap) (item : TrackedItem)
    (res : Option StockStatus) (ts : String) :
    StateMap × List StockAlert × (TrackedItem × Option StockStatus) :=
  match res with
  | none => (state, [], (item, none))
  | some status =>
    let wasOutOfStock := mapGet state item.url = some false
    let state' := mapSet state item.url status.inStock
    let alerts :=
      if status.inStock && wasOutOfStock then
        [⟨item, status, true, ts⟩]
      else []
    (state', alerts, (item, some status))

/-- Embedding of `checkAllItems`: iterate `stockItemStep` over the item list,
threading the `previousStockState` map, and return the final state, the
`alerts` array and the `statuses` array (a `none` status models the `null`
pushed for an item whose extraction threw). -/
def checkAllItems (fetch : String → Option StockStatus) (ts : String)
    (state : StateMap) :
    List TrackedItem → StateMap × List StockAlert × List (TrackedItem × Option StockStatus)
  | [] => (state, [], [])
  | it :: rest =>
    let r := stockItemStep state it (fetch it.url) ts
    let rs := checkAllItems fetch ts r.1 rest
    (rs.1, r.2.1 ++ rs.2.1, r.2.2 :: rs.2.2)

theorem mapGet_set_eq (m : StateMap) (k : String) (v : Bool) :
    mapGet (mapSet m k v) k = some v := by
  induction m with
  | nil => simp [mapGet, mapSet, List.find?]
  | cons p rest ih =>
    by_cases hp : p.1 = k
    · simp [mapGet, mapSet, hp, List.find?]
    · simpa [mapGet, mapSet, hp, List.find?] using ih

theorem mapGet_set_ne (m : StateMap) (k k' : String) (v : Bool) (hk : k ≠ k') :
    mapGet (mapSet m k' v) k = mapGet m k := by
  induction m with
  | nil => simp [mapGet, mapSet, List.find?, Ne.symm hk]
  | cons p rest ih =>
    by_cases hp : p.1 = k'
    · simp [mapGet, mapSet, hp, List.find?, Ne.symm hk, hp ▸ Ne.symm hk]
    · by_cases hpk : p.1 = k
      · simp [mapGet, mapSet, hp, hpk, List.find?, hk]
      · simpa [mapGet, mapSet, hp, hpk, List.find?] using ih

/-! ## Auction Tracker (`checkTrackedAuctions`) -/

/-- Embedding of the inline `CurrentBidSchema` zod object. -/
structure AuctionStatus where
  currentBid : String
  bidCount : String
  timeRemaining : String
  isEnded : Bool
deriving DecidableEq, Repr

/-- One entry of a tracked auction's `history`. -/
structure BidPoint where
  bid : JSNum
  bidCount : Int
  timestamp : String
deriving DecidableEq, Repr

/-- Embedding of the `TrackedAuction` interface. -/
structure TrackedAuction where
  id : String
  url : String
  title : String
  maxBid : JSNum
  notifications : Bool
  history : List BidPoint
deriving DecidableEq, Repr

/-- Embedding of the `AuctionAlert` interface (`type` is one of
`"ending_soon"`, `"outbid"`, `"price_drop"`, `"new_bid"`); the cosmetic
human-readable `message` string is omitted from the model. -/
structure AuctionAlert where
  type : String
  auction : String
  url : String
deriving DecidableEq, Repr

/-- First match of a regex `(\d+)\s*u` (with `u` a unit letter, matched
case-insensitively through the predicate): the scan advances one character
at a time; at a digit it takes the greedy digit run, skips whitespace, and
requires a unit character; the returned value is capture group 1. -/
def timeUnitMatch (unit : Char → Bool) : List Char → Option (List Char)
  | [] => none
  | c :: rest =>
    if c.isDigit then
      let ds := (c :: rest).takeWhile (·.isDigit)
      let after := ((c :: rest).dropWhile (·.isDigit)).dropWhile (·.isWhitespace)
      match after with
      | u :: _ => if unit u then some ds else timeUnitMatch unit rest
      | [] => timeUnitMatch unit rest
    else timeUnitMatch unit rest

/-- Embedding of `parseTimeRemaining`: minutes parsed from the first
`(\d+)\s*d`, `(\d+)\s*h` and `(\d+)\s*m` matches (case-insensitive),
`0` for each missing component. -/
def parseTimeRemaining (timeStr : String) : ℕ :=
  let l := timeStr.toList
  let d := match timeUnitMatch (fun u => u = 'd' || u = 'D') l with
           | some ds => digitsToNat ds * 24 * 60
           | none => 0
  let h := match timeUnitMatch (fun u => u = 'h' || u = 'H') l with
           | some ds => digitsToNat ds * 60
           | none => 0
  let m := match timeUnitMatch (fun u => u = 'm' || u = 'M') l with
           | some ds => digitsToNat ds
           | none => 0
  d + h + m

/-- JavaScript `parseInt(s) || 0`: leading whitespace skipped, optional
sign, greedy digit run; `NaN` (no digits) and `-0`/`0` both collapse to
`0` through `|| 0`. -/
def parseIntOr0 (s : String) : Int :=
  let l := s.toList.dropWhile (·.isWhitespace)
  match l with
  | '-' :: rest =>
    let ds := rest.takeWhile (·.isDigit)
    if ds.isEmpty then 0 else -(digitsToNat ds : Int)
  | '+' :: rest =>
    let ds := rest.takeWhile (·.isDigit)
    if ds.isEmpty then 0 else (digitsToNat ds : Int)
  | _ =>
    let ds := l.takeWhile (·.isDigit)
    if ds.isEmpty then 0 else (digitsToNat ds : Int)

/-- The body of the `for` loop of `checkTrackedAuctions` for one auction
whose extraction succeeded: pushes the new bid point onto `history`
(no retention cap) and collects the `ending_soon`, `outbid` and `new_bid`
alerts in push order. -/
def auctionStep (auction : TrackedAuction) (status : AuctionStatus)
    (ts : String) : TrackedAuction × List AuctionAlert :=
  let currentBid := parsePrice status.currentBid
  let previousBid :=
    match auction.history.getLast? with
    | some b => b.bid
    | none => .num 0
  let history1 := auction.history ++ [⟨currentBid, parseIntOr0 status.bidCount, ts⟩]
  let timeLeft := parseTimeRemaining status.timeRemaining
  let endingSoonAlerts :=
    if timeLeft < 60 && timeLeft > 0 then
      [⟨"ending_soon", auction.title, auction.url⟩]
    else []
  let outbidAlerts :=
    if jsLt auction.maxBid currentBid && jsLe previousBid auction.maxBid then
      [⟨"outbid", auction.title, auction.url⟩]
    else []
  let newBidAlerts :=
    if jsLt previousBid currentBid && jsLt (.num 0) previousBid then
      [⟨"new_bid", auction.title, auction.url⟩]
    else []
  ({ auction with history := history1 },
   endingSoonAlerts ++ outbidAlerts ++ newBidAlerts)

/-- Embedding of `checkTrackedAuctions`: the `for` loop has no per-auction
`try`/`catch`, so a failing extraction (modelled by `fetch _ = none`) throws
out of the loop and aborts the whole cycle (`Except.error ()`); on full
success the updated auctions and the accumulated alerts are returned. -/
def checkTrackedAuctions (fetch : String → Option AuctionStatus) (ts : String) :
    List TrackedAuction → Except Unit (List TrackedAuction × List AuctionAlert)
  | [] => .ok ([], [])
  | a :: rest =>
    match fetch a.url with
    | none => .error ()
    | some status =>
      let r := auctionStep a status ts
      match checkTrackedAuctions fetch ts rest with
      | .error e => .error e
      | .ok rs => .ok (r.1 :: rs.1, r.2 ++ rs.2)

/-! ## Website Change Detector (`hashContent`, `detectChanges`, `checkPage`) -/

/-- One element of the `importantSections` array of `PageContentSchema`. -/
structure PageSection where
  heading : String
  content : String
deriving DecidableEq, Repr

/-- Embedding of the zod `PageContentSchema` object. -/
structure PageContent where
  title : String
  mainContent : String
  lastUpdated : Option String
  links : List String
  importantSections : List PageSection
deriving DecidableEq, Repr

namespace MD5

/-- Rotate a 32-bit word left by `n` bits. -/
def rotl32 (x n : ℕ) : ℕ :=
  (((x % 2 ^ 32) <<< n) % 2 ^ 32) ||| ((x % 2 ^ 32) >>> (32 - n))

/-- The 64 MD5 sine-derived constants `K[i] = floor(2^32 * |sin(i+1)|)`. -/
def K : List ℕ :=
  [0xd76aa478, 0xe8c7b756, 0x242070db, 0xc1bdceee, 0xf57c0faf, 0x4787c62a,
   0xa8304613, 0xfd469501, 0x698098d8, 0x8b44f7af, 0xffff5bb1, 0x895cd7be,
   0x6b901122, 0xfd987193, 0xa679438e, 0x49b40821, 0xf61e2562, 0xc040b340,
   0x265e5a51, 0xe9b6c7aa, 0xd62f105d, 0x02441453, 0xd8a1e681, 0xe7d3fbc8,
   0x21e1cde6, 0xc33707d6, 0xf4d50d87, 0x455a14ed, 0xa9e3e905, 0xfcefa3f8,
   0x676f02d9, 0x8d2a4c8a, 0xfffa3942, 0x8771f681, 0x6d9d6122, 0xfde5380c,
   0xa4beea44, 0x4bdecfa9, 0xf6bb4b60, 0xbebfbc70, 0x289b7ec6, 0xeaa127fa,
   0xd4ef3085, 0x04881d05, 0xd9d4d039, 0xe6db99e5, 0x1fa27cf8, 0xc4ac5665,
   0xf4292244, 0x432aff97, 0xab9423a7, 0xfc93a039, 0x655b59c3, 0x8f0ccc92,
   0xffeff47d, 0x85845dd1, 0x6fa87e4f, 0xfe2ce6e0, 0xa3014314, 0x4e0811a1,
   0xf7537e82, 0xbd3af235, 0x2ad7d2bb, 0xeb86d391]

/-- The 64 per-round left-rotation amounts. -/
def S : List ℕ :=
  [7, 12, 17, 22, 7, 12, 17, 22, 7, 12, 17, 22, 7, 12, 17, 22,
   5, 9, 14, 20, 5, 9, 14, 20, 5, 9, 14, 20, 5, 9, 14, 20,
   4, 11, 16, 23, 4, 11, 16, 23, 4, 11, 16, 23, 4, 11, 16, 23,
   6, 10, 15, 21, 6, 10, 15, 21, 6, 10, 15, 21, 6, 10, 15, 21]

/-- UTF-8 encoding of one character (MD5 in node hashes the UTF-8 bytes
of the string given to `update`). -/
def utf8Char (c : Char) : List ℕ :=
  let n := c.toNat
  if n < 0x80 then [n]
  else if n < 0x800 then [0xC0 ||| (n >>> 6), 0x80 ||| (n &&& 0x3F)]
  else if n < 0x10000 then
    [0xE0 ||| (n >>> 12), 0x80 ||| ((n >>> 6) &&& 0x3F), 0x80 ||| (n &&& 0x3F)]
  else
    [0xF0 ||| (n >>> 18), 0x80 ||| ((n >>> 12) &&& 0x3F),
     0x80 ||| ((n >>> 6) &&& 0x3F), 0x80 ||| (n &&& 0x3F)]

/-- UTF-8 bytes of a string. -/
def strBytes (s : String) : List ℕ :=
  (s.toList.map utf8Char).flatten

/-- The 64-bit little-endian byte encoding used for the length field. -/
def le64 (n : ℕ) : List ℕ :=
  (List.range 8).map fun i => (n >>> (8 * i)) % 256

/-- MD5 padding: a `0x80` byte, zeros to 56 mod 64, then the bit length. -/
def pad (msg : List ℕ) : List ℕ :=
  let zeros := (119 - msg.length % 64) % 64
  msg ++ 0x80 :: List.replicate zeros 0 ++ le64 ((8 * msg.length) % 2 ^ 64)

/-- Split a padded message (a nonempty list whose length is a multiple
of 64) into its 64-byte blocks. -/
def chunks64 (l : List ℕ) : List (List ℕ) :=
  (List.range ((l.length + 63) / 64)).map fun i => (l.drop (64 * i)).take 64

/-- Decode a 64-byte block into 16 little-endian 32-bit words. -/
def toWords (block : List ℕ) : List ℕ :=
  (List.range 16).map fun i =>
    block.getD (4 * i) 0 + 256 * block.getD (4 * i + 1) 0 +
      65536 * block.getD (4 * i + 2) 0 + 16777216 * block.getD (4 * i + 3) 0

/-- The four MD5 round functions, selected by the step index. -/
def roundF (i b c d : ℕ) : ℕ :=
  if i < 16 then (b &&& c) ||| ((0xFFFFFFFF ^^^ b) &&& d)
  else if i < 32 then (d &&& b) ||| ((0xFFFFFFFF ^^^ d) &&& c)
  else if i < 48 then b ^^^ c ^^^ d
  else c ^^^ (b ||| (0xFFFFFFFF ^^^ d))

/-- The message-word index schedule. -/
def gIdx (i : ℕ) : ℕ :=
  if i < 16 then i
  else if i < 32 then (5 * i + 1) % 16
  else if i < 48 then (3 * i + 5) % 16
  else (7 * i) % 16

/-- One of the 64 MD5 steps on the `(A, B, C, D)` state. -/
def md5Round (M : List ℕ) (st : ℕ × ℕ × ℕ × ℕ) (i : ℕ) : ℕ × ℕ × ℕ × ℕ :=
  let f := (roundF i st.2.1 st.2.2.1 st.2.2.2 + st.1 + K.getD i 0 +
            M.getD (gIdx i) 0) % 2 ^ 32
  (st.2.2.2, (st.2.1 + rotl32 f (S.getD i 0)) % 2 ^ 32, st.2.1, st.2.2.1)

/-- Process one 64-byte block. -/
def md5Block (st : ℕ × ℕ × ℕ × ℕ) (block : List ℕ) : ℕ × ℕ × ℕ × ℕ :=
  let M := toWords block
  let r := (List.range 64).foldl (md5Round M) st
  ((st.1 + r.1) % 2 ^ 32, (st.2.1 + r.2.1) % 2 ^ 32,
   (st.2.2.1 + r.2.2.1) % 2 ^ 32, (st.2.2.2 + r.2.2.2) % 2 ^ 32)

/-- Lowercase hexadecimal digit. -/
def hexDigit (n : ℕ) : Char :=
  if n < 10 then Char.ofNat ('0'.toNat + n) else Char.ofNat ('a'.toNat + n - 10)

/-- Two lowercase hexadecimal digits of a byte. -/
def hexByte (n : ℕ) : List Char :=
  [hexDigit (n / 16 % 16), hexDigit (n % 16)]

/-- Little-endian hexadecimal rendering of one 32-bit word. -/
def wordHexLE (w : ℕ) : List Char :=
  ((List.range 4).map fun i => hexByte ((w >>> (8 * i)) % 256)).flatten

/-- MD5 digest of a string as a lowercase hexadecimal string: the model of
`crypto.createHash("md5").update(s).digest("hex")`. -/
def md5Hex (s : String) : String :=
  let blocks := chunks64 (pad (strBytes s))
  let r := blocks.foldl md5Block (0x67452301, 0xefcdab89, 0x98badcfe, 0x10325476)
  String.mk (wordHexLE r.1 ++ wordHexLE r.2.1 ++ wordHexLE r.2.2.1 ++ wordHexLE r.2.2.2)

end MD5





/-- JSON string escaping as performed by `JSON.stringify` on a string value. -/
def jsonEscapeChar (c : Char) : List Char :=
  if c = '"' then ['\\', '"']
  else if c = '\\' then ['\\', '\\']
  else if c = Char.ofNat 8 then ['\\', 'b']
  else if c = Char.ofNat 12 then ['\\', 'f']
  else if c = '\n' then ['\\', 'n']
  else if c = Char.ofNat 13 then ['\\', 'r']
  else if c = '\t' then ['\\', 't']
  else if c.toNat < 32 then '\\' :: 'u' :: '0' :: '0' :: MD5.hexByte c.toNat
  else [c]

/-- A JSON string literal (`JSON.stringify` of a string value). -/
def jsonStr (s : String) : String :=
  "\"" ++ String.mk ((s.toList.map jsonEscapeChar).flatten) ++ "\""

/-- The `JSON.stringify` serialization of a `PageContent` value, with the
object keys in the insertion order produced by parsing against
`PageContentSchema` (its declaration order). -/
def jsonStringify (c : PageContent) : String :=
  "\x7b\"title\":" ++ jsonStr c.title ++
  ",\"mainContent\":" ++ jsonStr c.mainContent ++
  ",\"lastUpdated\":" ++ (match c.lastUpdated with
                          | some s => jsonStr s
                          | none => "null") ++
  ",\"links\":[" ++ String.intercalate "," (c.links.map jsonStr) ++
  "],\"importantSections\":[" ++
  String.intercalate "," (c.importantSections.map fun s =>
    "\x7b\"heading\":" ++ jsonStr s.heading ++
    ",\"content\":" ++ jsonStr s.content ++ "\x7d") ++
  "]\x7d"

/-- Embedding of `hashContent`: the MD5 hex digest of
`JSON.stringify(content)`. No sorting of `importantSections` is performed
before serialization. -/
def hashContent (content : PageContent) : String :=
  MD5.md5Hex (jsonStringify content)

/-- The deduplicating, first-occurrence-order conversion performed by
`new Set(array)` when the set is spread back into an array. -/
def dedupFirstAux (seen : List String) : List String → List String
  | [] => []
  | x :: xs => if x ∈ seen then dedupFirstAux seen xs
               else x :: dedupFirstAux (x :: seen) xs

/-- Iteration order of `[...new Set(l)]`: first occurrences, in order. -/
def dedupFirst (l : List String) : List String :=
  dedupFirstAux [] l

/-- The `changes` object of a `ChangeDetection`. -/
structure Changes where
  titleChanged : Bool
  contentChanged : Bool
  newSections : List String
  removedSections : List String
  modifiedSections : List String
deriving DecidableEq, Repr

/-- Embedding of `detectChanges`: set differences of the section headings
(`Set.has` is list membership), and `modifiedSections` collected by walking
`current.importantSections` and comparing against the first previous section
with the same heading (`Array.find`). -/
def detectChanges (previous current : PageContent) : Changes :=
  let previousSections := dedupFirst (previous.importantSections.map (·.heading))
  let currentSections := dedupFirst (current.importantSections.map (·.heading))
  let newSections := currentSections.filter (fun s => ¬ s ∈ previousSections)
  let removedSections := previousSections.filter (fun s => ¬ s ∈ currentSections)
  let modifiedSections :=
    ((current.importantSections.filter fun sec =>
        match previous.importantSections.find? (fun s => s.heading = sec.heading) with
        | some prevSection => prevSection.content ≠ sec.content
        | none => false).map (·.heading))
  ⟨decide (previous.title ≠ current.title),
   decide (previous.mainContent ≠ current.mainContent),
   newSections, removedSections, modifiedSections⟩

/-- Embedding of the `MonitoredPage` interface (`checkInterval` and
`lastChecked` carried but never read by the diff logic). -/
structure MonitoredPage where
  id : String
  url : String
  name : String
  checkInterval : JSNum
  lastChecked : Option String
  lastHash : Option String
  lastContent : Option PageContent
deriving DecidableEq, Repr

/-- Embedding of the `ChangeDetection` interface; `changeType` is one of
`"new"`, `"modified"`, `"no_change"`. -/
structure ChangeDetection where
  page : MonitoredPage
  changeType : String
  changes : Option Changes
  previousContent : Option PageContent
  currentContent : PageContent
  timestamp : String
deriving DecidableEq, Repr

/-- Embedding of the successful path of `checkPage` with the extracted
`content` given: `!page.lastHash` (no stored hash, or the falsy empty
string) yields the first-time `"new"` result; an equal hash yields the
`"no_change"` result with no `changes` computed; otherwise `detectChanges`
runs against `lastContent` when present. -/
def checkPage (page : MonitoredPage) (content : PageContent) (ts : String) :
    ChangeDetection :=
  let currentHash := hashContent content
  match page.lastHash with
  | none => ⟨page, "new", none, none, content, ts⟩
  | some lastHash =>
    if lastHash = "" then ⟨page, "new", none, none, content, ts⟩
    else if currentHash = lastHash then ⟨page, "no_change", none, none, content, ts⟩
    else ⟨page, "modified", (page.lastContent.map fun prev => detectChanges prev content),
          page.lastContent, content, ts⟩

/-! ## Helper lemmas -/

theorem mem_dedupFirstAux (x : String) (l : List String) :
    ∀ seen, x ∈ dedupFirstAux seen l ↔ x ∈ l ∧ x ∉ seen := by
  induction l with
  | nil => intro seen; simp [dedupFirstAux]
  | cons y ys ih =>
    intro seen
    by_cases hy : y ∈ seen
    · simp only [dedupFirstAux, if_pos hy, ih, List.mem_cons]
      constructor
      · rintro ⟨hx, hs⟩; exact ⟨Or.inr hx, hs⟩
      · rintro ⟨rfl | hx, hs⟩
        · exact absurd hy hs
        · exact ⟨hx, hs⟩
    · simp only [dedupFirstAux, if_neg hy, List.mem_cons, ih]
      by_cases hxy : x = y
      · subst hxy; simp [hy]
      · simp [hxy, not_or]

theorem mem_dedupFirst (x : String) (l : List String) :
    x ∈ dedupFirst l ↔ x ∈ l := by
  simp [dedupFirst, mem_dedupFirstAux]

theorem find?_heading_eq_some_of_nodup {l : List PageSection} {sp : PageSection}
    {h : String} (hnd : (l.map (·.heading)).Nodup) (hmem : sp ∈ l)
    (hh : sp.heading = h) :
    l.find? (fun s => s.heading = h) = some sp := by
  induction l with
  | nil => simp at hmem
  | cons q rest ih =>
    simp only [List.map_cons, List.nodup_cons] at hnd
    rcases List.mem_cons.mp hmem with rfl | hmem'
    · simp [List.find?_cons, hh]
    · have hne : ¬ q.heading = h := by
        intro hq
        exact hnd.1 (by
          rw [hq, ← hh]
          exact List.mem_map.mpr ⟨sp, hmem', rfl⟩)
      simp only [List.find?_cons, decide_eq_false hne]
      exact ih hnd.2 hmem'

theorem checkProductStep_history (p : TrackedProduct) (s ts : String) :
    (checkProductStep p (some s) ts).1.priceHistory =
      (if (p.priceHistory ++ [PricePoint.mk (parsePrice s) ts]).length > 100
       then (p.priceHistory ++ [PricePoint.mk (parsePrice s) ts]).drop
              ((p.priceHistory ++ [PricePoint.mk (parsePrice s) ts]).length - 100)
       else p.priceHistory ++ [PricePoint.mk (parsePrice s) ts]) := rfl

theorem checkProductStep_getLast (p : TrackedProduct) (s ts : String) :
    (checkProductStep p (some s) ts).1.priceHistory.getLast? =
      some (PricePoint.mk (parsePrice s) ts) := by
  rw [checkProductStep_history]
  split
  · rename_i hgt
    rw [List.drop_append_of_le_length
          (by simp only [List.length_append, List.length_cons,
                List.length_nil] at hgt ⊢; omega),
        List.getLast?_concat]
  · exact List.getLast?_concat _

theorem checkProductStep_target_unchanged (p : TrackedProduct) (s ts : String) :
    (checkProductStep p (some s) ts).1.targetPrice = p.targetPrice := rfl

theorem checkProductStep_alerts_def (p : TrackedProduct) (s ts : String) :
    (checkProductStep p (some s) ts).2 =
      (let c := parsePrice s
       let prev := match p.priceHistory.getLast? with
                   | some pt => pt.price
                   | none => c
       (if jsLt c prev && jsLe (.num 5) (jsAbs (changePercentOf c prev)) then
          [⟨p.id, p.name, prev, c, changePercentOf c prev, p.url, "drop"⟩]
        else []) ++
       (if jsLe c p.targetPrice && jsLt p.targetPrice prev then
          [⟨p.id, p.name, prev, c, changePercentOf c prev, p.url, "target_reached"⟩]
        else [])) := rfl

theorem wordHexLE_ne_nil (w : ℕ) : MD5.wordHexLE w ≠ [] := by
  unfold MD5.wordHexLE
  rw [show List.range 4 = [0, 1, 2, 3] from rfl]
  simp [MD5.hexByte]

theorem md5Hex_ne_empty (s : String) : MD5.md5Hex s ≠ "" := by
  intro h
  have hd : (MD5.md5Hex s).data = [] := by rw [h]
  unfold MD5.md5Hex at hd
  dsimp only at hd
  rw [List.append_eq_nil, List.append_eq_nil, List.append_eq_nil] at hd
  exact wordHexLE_ne_nil _ hd.1.1.1

theorem hashContent_ne_empty (c : PageContent) : hashContent c ≠ "" :=
  md5Hex_ne_empty _

theorem checkAllItems_append (fetch : String → Option StockStatus) (ts : String)
    (la lb : List TrackedItem) :
    ∀ st : StateMap,
      checkAllItems fetch ts st (la ++ lb) =
        ((checkAllItems fetch ts (checkAllItems fetch ts st la).1 lb).1,
         (checkAllItems fetch ts st la).2.1 ++
           (checkAllItems fetch ts (checkAllItems fetch ts st la).1 lb).2.1,
         (checkAllItems fetch ts st la).2.2 ++
           (checkAllItems fetch ts (checkAllItems fetch ts st la).1 lb).2.2) := by
  induction la with
  | nil => intro st; simp [checkAllItems]
  | cons it rest ih =>
    intro st
    simp only [List.cons_append, checkAllItems]
    simp only [List.append_eq]
    rw [ih]
    simp [List.append_assoc]

theorem checkAllItems_alerts_nil (fetch : String → Option StockStatus)
    (ts : String) :
    ∀ (items : List TrackedItem) (st : StateMap),
      (items.map (·.url)).Nodup →
      (∀ it ∈ items, mapGet st it.url ≠ some false) →
      (checkAllItems fetch ts st items).2.1 = [] := by
  intro items
  induction items with
  | nil => intro st _ _; rfl
  | cons it rest ih =>
    intro st hnd hst
    simp only [List.map_cons, List.nodup_cons] at hnd
    simp only [checkAllItems]
    cases hf : fetch it.url with
    | none =>
      simp only [stockItemStep, List.nil_append]
      exact ih st hnd.2 fun it' hmem => hst it' (List.mem_cons_of_mem _ hmem)
    | some status =>
      have hw : ¬ mapGet st it.url = some false := hst it (List.mem_cons_self _ _)
      simp only [stockItemStep, decide_eq_false hw, Bool.and_false, if_neg,
        Bool.false_eq_true, not_false_eq_true, List.nil_append]
      refine ih (mapSet st it.url status.inStock) hnd.2 fun it' hmem => ?_
      have hne : it'.url ≠ it.url := by
        intro hurl
        exact hnd.1 (hurl ▸ List.mem_map.mpr ⟨it', hmem, rfl⟩)
      rw [mapGet_set_ne _ _ _ _ hne]
      exact hst it' (List.mem_cons_of_mem _ hmem)

/-! ## Sample values used by the concrete instances -/

/-- A page content with two sections, in the order `A`, `B`. -/
def hashSampleA : PageContent := ⟨"T", "M", none, [], [⟨"A", "x"⟩, ⟨"B", "y"⟩]⟩

/-- The same page content with the two sections swapped. -/
def hashSampleB : PageContent := ⟨"T", "M", none, [], [⟨"B", "y"⟩, ⟨"A", "x"⟩]⟩

/-- A monitored page whose stored hash is the hash of `hashSampleA`. -/
def pageSampleStored : MonitoredPage :=
  ⟨"p1", "https://example.com", "Example", .num 60, some "t0",
   some (hashContent hashSampleA), some hashSampleA⟩

/-- A monitored page that has never been checked. -/
def pageSampleFresh : MonitoredPage :=
  ⟨"p2", "https://example.com/fresh", "Fresh", .num 60, none, none, none⟩

/-- A tracked product with target price 300 whose last recorded price is 320
(spec's target-reached scenario). -/
def productSample320 : TrackedProduct :=
  ⟨"1", "Sony WH-1000XM5 Headphones", "u1", .num 300,
   [PricePoint.mk (.num 320) "t0"], .num 320, .num 320⟩

/-- A tracked product whose last recorded price is 100 (spec's
percent-change scenario). -/
def productSample100 : TrackedProduct :=
  ⟨"2", "Apple AirPods Pro", "u2", .num 50,
   [PricePoint.mk (.num 100) "t0"], .num 100, .num 100⟩

/-- A tracked product that has never been successfully checked. -/
def productSampleFresh : TrackedProduct :=
  ⟨"3", "Biggest Headphones", "u3", .num 300, [], .num 0, .num 0⟩

/-- A tracked product whose last recorded price is the parse-failure value 0. -/
def productSampleZero : TrackedProduct :=
  ⟨"4", "Unparseable", "u4", .num 300, [PricePoint.mk (.num 0) "t0"], .num 0, .num 0⟩

/-- A tracked stock item. -/
def stockItemSample : TrackedItem := ⟨"PlayStation 5", "u-ps5", "Amazon", none⟩

/-- An in-stock extraction result. -/
def stockStatusIn : StockStatus :=
  ⟨"PlayStation 5", true, some "$499.99", none, none, none, none⟩

/-- A first stock item for the isolation instance. -/
def stockItemA : TrackedItem := ⟨"NVIDIA RTX 4090", "ua", "BestBuy", none⟩

/-- The failing stock item of the isolation instance. -/
def stockItemBad : TrackedItem := ⟨"Steam Deck OLED 1TB", "ub", "Steam", none⟩

/-- A third stock item for the isolation instance. -/
def stockItemC : TrackedItem := ⟨"AMD Ryzen 9 9950X", "uc", "Newegg", none⟩

/-- A stock extraction that throws exactly for `stockItemBad`'s URL. -/
def fetchStockSample : String → Option StockStatus :=
  fun u => if u = "ub" then none else some stockStatusIn

/-- The previous-sections instance of the spec's structural-diff example. -/
def sectionsPrevSample : PageContent :=
  ⟨"t", "m", none, [], [⟨"Specs", "A"⟩, ⟨"Reviews", "B"⟩]⟩

/-- The current-sections instance of the spec's structural-diff example. -/
def sectionsCurSample : PageContent :=
  ⟨"t", "m", none, [], [⟨"Specs", "A2"⟩, ⟨"Shipping", "C"⟩]⟩

/-- A tracked auction whose bid history already holds 100 points. -/
def auctionSample100 : TrackedAuction :=
  ⟨"a1", "u-auction", "Vintage Camera", .num 500, true,
   List.replicate 100 (BidPoint.mk (.num 1) 0 "t0")⟩

/-- An auction status used for one further check. -/
def auctionStatusSample : AuctionStatus := ⟨"$5", "2", "2 h", false⟩

/-- The failing auction of the abort instance. -/
def auctionBad : TrackedAuction := ⟨"a2", "u-bad", "Broken Listing", .num 500, true, []⟩

/-- A healthy auction that would produce a `new_bid` alert. -/
def auctionGood : TrackedAuction :=
  ⟨"a3", "u-good", "Healthy Listing", .num 500, true, [BidPoint.mk (.num 10) 1 "t0"]⟩

/-- An auction extraction that throws exactly for `auctionBad`'s URL. -/
def fetchAuctionSample : String → Option AuctionStatus :=
  fun u => if u = "u-good" then some ⟨"$20", "2", "5 h", false⟩ else none

/-! ## Claims -/

set_option maxRecDepth 1000000 in
/-- C1 (corrected, counterexample): snapshot hashing is NOT insensitive to
the ordering of the section collection: `hashSampleB` equals `hashSampleA`
in every field except that its `importantSections` array is a permutation
(the swap) of the other's, yet `hashContent` returns different digests. -/
theorem C1_hash_order_counterexample :
    hashSampleB.title = hashSampleA.title ∧
    hashSampleB.mainContent = hashSampleA.mainContent ∧
    hashSampleB.lastUpdated = hashSampleA.lastUpdated ∧
    hashSampleB.links = hashSampleA.links ∧
    hashSampleB.importantSections.Perm hashSampleA.importantSections ∧
    hashContent hashSampleB ≠ hashContent hashSampleA :=
  ⟨rfl, rfl, rfl, rfl, by decide, by decide⟩

/-- C1 (amended): `hashContent` is a pure function of the JSON serialization
of the content: a permutation of `importantSections` preserves the digest
exactly when it preserves `JSON.stringify` of the content (in particular
for the identity permutation); in general reordering the sections changes
the serialization and the digest, as `C1_hash_order_counterexample` shows. -/
theorem C1_hash_determined_by_serialization (c : PageContent)
    (l : List PageSection)
    (h : jsonStringify { c with importantSections := l } = jsonStringify c) :
    hashContent { c with importantSections := l } = hashContent c := by
  unfold hashContent
  rw [h]

/-- Witness for `C1_hash_determined_by_serialization` at `hashSampleA` and
the identity arrangement of its sections. -/
theorem C1_hash_determined_by_serialization_witness :
    hashContent { hashSampleA with importantSections := [⟨"A", "x"⟩, ⟨"B", "y"⟩] } =
      hashContent hashSampleA :=
  C1_hash_determined_by_serialization hashSampleA [⟨"A", "x"⟩, ⟨"B", "y"⟩] rfl

/-- C2 (confirmed): for every monitored page whose stored `lastHash` equals
the hash of the freshly extracted content, `checkPage` returns the
`"no_change"` result and the `changes` field is absent (`none`):
section diffing is not performed. -/
theorem C2_no_change_short_circuit (page : MonitoredPage)
    (content : PageContent) (ts : String)
    (h : page.lastHash = some (hashContent content)) :
    (checkPage page content ts).changeType = "no_change" ∧
    (checkPage page content ts).changes = none := by
  unfold checkPage
  rw [h]
  dsimp only
  rw [if_neg (hashContent_ne_empty content), if_pos rfl]
  exact ⟨rfl, rfl⟩

/-- Witness for `C2_no_change_short_circuit` at `pageSampleStored`, whose
stored hash is `hashContent hashSampleA`. -/
theorem C2_no_change_short_circuit_witness :
    (checkPage pageSampleStored hashSampleA "t1").changeType = "no_change" ∧
    (checkPage pageSampleStored hashSampleA "t1").changes = none :=
  C2_no_change_short_circuit pageSampleStored hashSampleA "t1" rfl

/-- C3 (confirmed): transition rules fire only on transitions. For the price
tracker's threshold rule: if the previous recorded price is above the target
and the current price is at or below it, a `"target_reached"` alert fires on
this cycle, and on the next cycle (when the condition was already satisfied
and remains satisfied) no `"target_reached"` alert fires. For the stock
checker's state-transition rule: if the recorded previous `inStock` is
`false` and the current status is in stock, the back-in-stock alert fires on
this cycle, and it does not fire on the next cycle while the item stays in
stock. -/
theorem C3_transition_rules_fire_once (p : TrackedProduct) (pt : PricePoint)
    (s₁ s₂ ts₁ ts₂ : String)
    (hlast : p.priceHistory.getLast? = some pt)
    (hcross : jsLe (parsePrice s₁) p.targetPrice = true)
    (hprev : jsLt p.targetPrice pt.price = true)
    (_hstay : jsLe (parsePrice s₂) p.targetPrice = true)
    (st : StateMap) (item : TrackedItem) (st₁ st₂ : StockStatus)
    (u₁ u₂ : String)
    (hwas : mapGet st item.url = some false)
    (hin₁ : st₁.inStock = true) (_hin₂ : st₂.inStock = true) :
    (∃ a ∈ (checkProductStep p (some s₁) ts₁).2, a.alertType = "target_reached")
    ∧ (∀ a ∈ (checkProductStep (checkProductStep p (some s₁) ts₁).1 (some s₂) ts₂).2,
         a.alertType ≠ "target_reached")
    ∧ (stockItemStep st item (some st₁) u₁).2.1 = [⟨item, st₁, true, u₁⟩]
    ∧ (stockItemStep (stockItemStep st item (some st₁) u₁).1 item (some st₂) u₂).2.1 = [] := by
  refine ⟨?_, ?_, ?_, ?_⟩
  · rw [checkProductStep_alerts_def]
    simp only [hlast]
    refine ⟨⟨p.id, p.name, pt.price, parsePrice s₁,
             changePercentOf (parsePrice s₁) pt.price, p.url, "target_reached"⟩,
            List.mem_append_right _ ?_, rfl⟩
    rw [show (jsLe (parsePrice s₁) p.targetPrice && jsLt p.targetPrice pt.price) = true by
          rw [hcross, hprev]; rfl]
    simp
  · intro a ha
    rw [checkProductStep_alerts_def] at ha
    simp only [checkProductStep_getLast, checkProductStep_target_unchanged] at ha
    rw [jsLe_lt_asymm hcross] at ha
    simp only [Bool.and_false, Bool.false_eq_true, if_false, List.append_nil] at ha
    split at ha
    · rw [List.mem_singleton.mp ha]
      simp
    · simp at ha
  · simp [stockItemStep, hwas, hin₁]
  · have hget : mapGet (mapSet st item.url st₁.inStock) item.url = some true := by
      rw [hin₁]
      exact mapGet_set_eq st item.url true
    simp [stockItemStep, hget]

/-- Witness for `C3_transition_rules_fire_once`: the spec's target-reached
scenario (target 300, previous 320, then 299, then 290) and a stock item
whose recorded state is out-of-stock and which is in stock twice in a row. -/
theorem C3_transition_rules_fire_once_witness :
    (∃ a ∈ (checkProductStep productSample320 (some "299") "t1").2,
       a.alertType = "target_reached")
    ∧ (∀ a ∈ (checkProductStep (checkProductStep productSample320 (some "299") "t1").1
                (some "290") "t2").2, a.alertType ≠ "target_reached")
    ∧ (stockItemStep [("u-ps5", false)] stockItemSample (some stockStatusIn) "t1").2.1 =
        [⟨stockItemSample, stockStatusIn, true, "t1"⟩]
    ∧ (stockItemStep (stockItemStep [("u-ps5", false)] stockItemSample
          (some stockStatusIn) "t1").1 stockItemSample (some stockStatusIn) "t2").2.1 = [] :=
  C3_transition_rules_fire_once productSample320 (PricePoint.mk (.num 320) "t0")
    "299" "290" "t1" "t2" (by decide) (by decide) (by decide) (by decide)
    [("u-ps5", false)] stockItemSample stockStatusIn stockStatusIn "t1" "t2"
    (by decide) rfl rfl

/-- C4 (confirmed): first-observation guard. A page with no stored hash gets
the distinguished `"new"` result with no `changes` computed, and a product
with an empty price history produces no alert on its first successful check
(the previous price defaults to the current price, not to zero, so neither
the drop rule nor the target rule can fire). -/
theorem C4_first_observation_guard (page : MonitoredPage)
    (content : PageContent) (ts : String) (p : TrackedProduct) (s ts' : String)
    (hnew : page.lastHash = none) (hfresh : p.priceHistory = []) :
    (checkPage page content ts).changeType = "new"
    ∧ (checkPage page content ts).changes = none
    ∧ (checkProductStep p (some s) ts').2 = [] := by
  refine ⟨?_, ?_, ?_⟩
  · simp [checkPage, hnew]
  · simp [checkPage, hnew]
  · rw [checkProductStep_alerts_def]
    simp only [hfresh, List.getLast?_nil]
    rw [jsLt_irrefl]
    simp only [Bool.false_and, Bool.false_eq_true, if_false, List.nil_append]
    by_cases hle : jsLe (parsePrice s) p.targetPrice = true
    · rw [jsLe_lt_asymm hle]
      simp
    · rw [Bool.eq_false_iff.mpr hle]
      simp

/-- Witness for `C4_first_observation_guard` at the never-checked page and
the never-checked product. -/
theorem C4_first_observation_guard_witness :
    (checkPage pageSampleFresh hashSampleA "t1").changeType = "new"
    ∧ (checkPage pageSampleFresh hashSampleA "t1").changes = none
    ∧ (checkProductStep productSampleFresh (some "95") "t1").2 = [] :=
  C4_first_observation_guard pageSampleFresh hashSampleA "t1"
    productSampleFresh "95" "t1" rfl rfl

/-- C5 (confirmed): for a product with a non-empty price history, a
`"drop"` alert fires exactly when the current price is strictly below the
previous recorded price and the absolute percent change
`|(current - previous) / previous * 100|` is at least 5 (boundary
inclusive), and any fired drop alert carries exactly that percent change
together with the previous and current prices. -/
theorem C5_drop_alert_iff (p : TrackedProduct) (pt : PricePoint)
    (s ts : String) (hlast : p.priceHistory.getLast? = some pt) :
    ((∃ a ∈ (checkProductStep p (some s) ts).2, a.alertType = "drop") ↔
      (jsLt (parsePrice s) pt.price = true ∧
       jsLe (.num 5) (jsAbs (changePercentOf (parsePrice s) pt.price)) = true))
    ∧ (∀ a ∈ (checkProductStep p (some s) ts).2, a.alertType = "drop" →
        a.previousPrice = pt.price ∧ a.currentPrice = parsePrice s ∧
        a.changePercent = changePercentOf (parsePrice s) pt.price) := by
  rw [checkProductStep_alerts_def]
  simp only [hlast]
  constructor
  · constructor
    · rintro ⟨a, ha, hty⟩
      rcases List.mem_append.mp ha with h1 | h2
      · split at h1
        · rename_i hcond
          rw [Bool.and_eq_true] at hcond
          exact hcond
        · simp at h1
      · split at h2
        · rw [List.mem_singleton.mp h2] at hty
          simp at hty
        · simp at h2
    · rintro ⟨h1, h2⟩
      refine ⟨⟨p.id, p.name, pt.price, parsePrice s,
               changePercentOf (parsePrice s) pt.price, p.url, "drop"⟩,
              List.mem_append_left _ ?_, rfl⟩
      rw [show (jsLt (parsePrice s) pt.price &&
            jsLe (.num 5) (jsAbs (changePercentOf (parsePrice s) pt.price))) = true by
          rw [h1, h2]; rfl]
      simp
  · intro a ha hty
    rcases List.mem_append.mp ha with h1 | h2
    · split at h1
      · rw [List.mem_singleton.mp h1]
        exact ⟨rfl, rfl, rfl⟩
      · simp at h1
    · split at h2
      · rw [List.mem_singleton.mp h2] at hty
        simp at hty
      · simp at h2

/-- Witness for `C5_drop_alert_iff`: previous price 100, current price 95
fires with percent change exactly -5, and a 10 percent threshold would not
be met by that pair. -/
theorem C5_drop_alert_iff_witness :
    (∃ a ∈ (checkProductStep productSample100 (some "95") "t1").2,
       a.alertType = "drop")
    ∧ changePercentOf (parsePrice "95") (.num 100) = .num (-5)
    ∧ jsLe (.num 10) (jsAbs (changePercentOf (parsePrice "95") (.num 100))) = false := by
  have h95 : parsePrice "95" = JSNum.num 95 := by decide
  have hcp : changePercentOf (parsePrice "95") (JSNum.num 100) = JSNum.num (-5) := by
    rw [h95]
    norm_num [changePercentOf, jsSub, jsDiv, jsMul]
  refine ⟨(C5_drop_alert_iff productSample100 (PricePoint.mk (.num 100) "t0") "95" "t1"
      (by decide)).1.mpr ⟨?_, ?_⟩, ?_, ?_⟩
  · rw [h95]; decide
  · show jsLe (.num 5) (jsAbs (changePercentOf (parsePrice "95") (.num 100))) = true
    rw [hcp]
    decide
  · exact hcp
  · rw [hcp]
    decide

theorem isFinite_jsMul_hundred (x : JSNum) (hx : JSNum.isFinite x = false) :
    JSNum.isFinite (jsMul x (.num 100)) = false := by
  cases x with
  | num q => simp [JSNum.isFinite] at hx
  | posInf => norm_num [jsMul, JSNum.isFinite]
  | negInf => norm_num [jsMul, JSNum.isFinite]
  | nan => rfl

theorem changePercentOf_zero_prev (c : JSNum) :
    JSNum.isFinite (changePercentOf c (.num 0)) = false := by
  apply isFinite_jsMul_hundred
  cases c with
  | num q =>
    show JSNum.isFinite (jsDiv (jsSub (.num q) (.num 0)) (.num 0)) = false
    simp only [jsSub, jsDiv, if_pos rfl]
    split_ifs <;> rfl
  | posInf =>
    show JSNum.isFinite (jsDiv (jsSub .posInf (.num 0)) (.num 0)) = false
    norm_num [jsSub, jsDiv, JSNum.isFinite]
  | negInf =>
    show JSNum.isFinite (jsDiv (jsSub .negInf (.num 0)) (.num 0)) = false
    norm_num [jsSub, jsDiv, JSNum.isFinite]
  | nan => rfl

theorem jsLt_num_zero_false (c : JSNum)
    (hc : c = .nan ∨ ∃ q : ℚ, c = .num q ∧ 0 ≤ q) :
    jsLt c (.num 0) = false := by
  rcases hc with rfl | ⟨q, rfl, hq⟩
  · rfl
  · exact decide_eq_false (not_lt.mpr hq)

theorem target_cond_false (c t : JSNum)
    (hc : c = .nan ∨ ∃ q : ℚ, c = .num q ∧ 0 ≤ q) :
    (jsLe c t && jsLt t (.num 0)) = false := by
  rcases hc with rfl | ⟨q, rfl, hq⟩
  · cases t <;> simp [jsLe]
  · cases t with
    | num tq =>
      by_cases h : tq < 0
      · have hle : ¬ q ≤ tq := not_le.mpr (lt_of_lt_of_le h hq)
        simp [jsLe, hle]
      · simp [jsLt, h]
    | posInf => simp [jsLt]
    | negInf => simp [jsLe]
    | nan => simp [jsLe]

/-- C6 (corrected, counterexample): the previous price 0 is reachable
(`parsePrice` returns 0 for an unparseable price string), and on such a
cycle the code's computed percent change for a current price of 50 is the
infinite value `posInf` — it is not reported as an undefined/absent value. -/
theorem C6_percent_change_infinite_counterexample :
    parsePrice "unavailable" = .num 0
    ∧ changePercentOf (.num 50) (.num 0) = JSNum.posInf := by
  refine ⟨by decide, ?_⟩
  show jsMul (jsDiv (jsSub (.num 50) (.num 0)) (.num 0)) (.num 100) = JSNum.posInf
  norm_num [jsSub, jsDiv, jsMul]

/-- C6 (amended): when the previous recorded price is 0, the computed
percent change is a non-finite value (an infinity or NaN) rather than an
undefined one, but no alert at all is produced for that product on that
cycle, so no infinite or NaN percent change is ever reported in an alert. -/
theorem C6_zero_previous_no_alert (p : TrackedProduct) (pt : PricePoint)
    (s ts : String) (hlast : p.priceHistory.getLast? = some pt)
    (hzero : pt.price = .num 0) :
    (checkProductStep p (some s) ts).2 = []
    ∧ JSNum.isFinite (changePercentOf (parsePrice s) (.num 0)) = false := by
  refine ⟨?_, changePercentOf_zero_prev _⟩
  rw [checkProductStep_alerts_def]
  simp only [hlast, hzero]
  rw [jsLt_num_zero_false (parsePrice s) (parsePrice_nonneg s),
      target_cond_false (parsePrice s) p.targetPrice (parsePrice_nonneg s)]
  simp

/-- Witness for `C6_zero_previous_no_alert`: previous recorded price 0 and
current extracted price `"50"`. -/
theorem C6_zero_previous_no_alert_witness :
    (checkProductStep productSampleZero (some "50") "t1").2 = []
    ∧ JSNum.isFinite (changePercentOf (parsePrice "50") (.num 0)) = false :=
  C6_zero_previous_no_alert productSampleZero (PricePoint.mk (.num 0) "t0")
    "50" "t1" (by decide) rfl

/-- C7 (confirmed): structural diff set semantics. For every pair of
previous and current contents (headings of the previous content assumed
unique, as `Set`/`find` semantics presuppose), a heading is in
`newSections` iff it occurs in the current sections but not the previous
ones, in `removedSections` iff it occurs in the previous sections but not
the current ones, and in `modifiedSections` iff it occurs in both with
different section text. -/
theorem C7_detect_changes_set_semantics (previous current : PageContent)
    (h : String)
    (hnd : (previous.importantSections.map (·.heading)).Nodup) :
    (h ∈ (detectChanges previous current).newSections ↔
      (h ∈ current.importantSections.map (·.heading) ∧
       h ∉ previous.importantSections.map (·.heading)))
    ∧ (h ∈ (detectChanges previous current).removedSections ↔
      (h ∈ previous.importantSections.map (·.heading) ∧
       h ∉ current.importantSections.map (·.heading)))
    ∧ (h ∈ (detectChanges previous current).modifiedSections ↔
      ∃ sp ∈ previous.importantSections, ∃ sc ∈ current.importantSections,
        sp.heading = h ∧ sc.heading = h ∧ sp.content ≠ sc.content) := by
  refine ⟨?_, ?_, ?_⟩
  · simp [detectChanges, List.mem_filter, mem_dedupFirst]
  · simp [detectChanges, List.mem_filter, mem_dedupFirst]
  · constructor
    · intro hmem
      simp only [detectChanges] at hmem
      rcases List.mem_map.mp hmem with ⟨sec, hsec, hhead⟩
      rcases List.mem_filter.mp hsec with ⟨hsec_mem, hP⟩
      cases hfind : previous.importantSections.find? (fun s => s.heading = sec.heading) with
      | none => rw [hfind] at hP; simp at hP
      | some sp =>
        rw [hfind] at hP
        have hsp_mem := List.mem_of_find?_eq_some hfind
        have hsp_head : sp.heading = sec.heading := by
          have := List.find?_some hfind
          simpa using this
        exact ⟨sp, hsp_mem, sec, hsec_mem, hhead ▸ hsp_head, hhead, by simpa using hP⟩
    · rintro ⟨sp, hsp, sc, hsc, hsph, hsch, hcont⟩
      simp only [detectChanges]
      refine List.mem_map.mpr ⟨sc, List.mem_filter.mpr ⟨hsc, ?_⟩, hsch⟩
      rw [find?_heading_eq_some_of_nodup hnd hsp (hsph.trans hsch.symm)]
      simpa using hcont

/-- Witness for `C7_detect_changes_set_semantics`: the spec's example —
previous sections Specs:A, Reviews:B against current sections Specs:A2,
Shipping:C yield exactly newSections = [Shipping], removedSections =
[Reviews], modifiedSections = [Specs]. -/
theorem C7_detect_changes_set_semantics_witness :
    (detectChanges sectionsPrevSample sectionsCurSample).newSections = ["Shipping"]
    ∧ (detectChanges sectionsPrevSample sectionsCurSample).removedSections = ["Reviews"]
    ∧ (detectChanges sectionsPrevSample sectionsCurSample).modifiedSections = ["Specs"]
    ∧ ("Specs" ∈ (detectChanges sectionsPrevSample sectionsCurSample).modifiedSections ↔
        ∃ sp ∈ sectionsPrevSample.importantSections,
          ∃ sc ∈ sectionsCurSample.importantSections,
            sp.heading = "Specs" ∧ sc.heading = "Specs" ∧ sp.content ≠ sc.content) :=
  ⟨by decide, by decide, by decide,
   (C7_detect_changes_set_semantics sectionsPrevSample sectionsCurSample "Specs"
      (by decide)).2.2⟩

theorem auctionStep_history (a : TrackedAuction) (st : AuctionStatus)
    (ts : String) :
    (auctionStep a st ts).1.history =
      a.history ++ [BidPoint.mk (parsePrice st.currentBid)
        (parseIntOr0 st.bidCount) ts] := rfl

/-- C8 (corrected, counterexample): the bounded-history invariant fails for
the auction tracker: an auction whose bid history already holds 100 points
holds 101 points after one further check — `checkTrackedAuctions` appends
without evicting anything. -/
theorem C8_auction_history_unbounded_counterexample :
    auctionSample100.history.length = 100
    ∧ (auctionStep auctionSample100 auctionStatusSample "t1").1.history.length = 101 := by
  constructor
  · simp [auctionSample100]
  · rw [auctionStep_history]
    simp [auctionSample100]

/-- C8 (amended): the 100-point retention cap with FIFO eviction holds for
the price tracker's `priceHistory` — after every successful check the
history holds at most 100 points, exactly `min (old + 1) 100` of them, and
is a suffix of the appended history (the oldest points are the ones
dropped, newest preserved in order) — but the auction tracker's bid
history is appended with no cap at all (and the rank history likewise). -/
theorem C8_price_history_cap_auction_unbounded (p : TrackedProduct)
    (s ts : String) (a : TrackedAuction) (st : AuctionStatus) (ts' : String) :
    (checkProductStep p (some s) ts).1.priceHistory.length ≤ 100
    ∧ (checkProductStep p (some s) ts).1.priceHistory.length =
        min (p.priceHistory.length + 1) 100
    ∧ (checkProductStep p (some s) ts).1.priceHistory <:+
        (p.priceHistory ++ [PricePoint.mk (parsePrice s) ts])
    ∧ (auctionStep a st ts').1.history =
        a.history ++ [BidPoint.mk (parsePrice st.currentBid)
          (parseIntOr0 st.bidCount) ts'] := by
  refine ⟨?_, ?_, ?_, rfl⟩
  · rw [checkProductStep_history]
    split
    · rename_i hgt
      rw [List.length_drop]
      omega
    · rename_i hle
      omega
  · rw [checkProductStep_history]
    split
    · rename_i hgt
      rw [List.length_drop]
      simp only [List.length_append, List.length_cons, List.length_nil] at hgt ⊢
      omega
    · rename_i hle
      simp only [List.length_append, List.length_cons, List.length_nil] at hle ⊢
      omega
  · rw [checkProductStep_history]
    split
    · exact List.drop_suffix _ _
    · exact List.suffix_refl _

/-- C9 (corrected, counterexample): per-entity failure isolation fails for
the auction tracker: with two tracked auctions of which the first one's
extraction throws, the whole cycle aborts with an error — although the
second auction alone would have produced one alert. -/
theorem C9_auction_abort_counterexample :
    checkTrackedAuctions fetchAuctionSample "t1" [auctionBad, auctionGood] =
      .error ()
    ∧ (checkTrackedAuctions fetchAuctionSample "t1" [auctionGood]).toOption.map
        (fun r => r.2.length) = some 1 := by
  exact ⟨rfl, by decide⟩

/-- C9 (amended): per-entity failure isolation holds for the stock
checker's `checkAllItems`: when one item's extraction throws, the final
state and the alerts are exactly those of the cycle without that item, and
the statuses are those of the other items with a `null` status recorded in
place for the failing one; but in `checkTrackedAuctions` one failure aborts
the cycle for all remaining auctions (see
`C9_auction_abort_counterexample`). -/
theorem C9_failure_isolation_stock (fetch : String → Option StockStatus)
    (ts : String) (st : StateMap) (l1 l2 : List TrackedItem)
    (bad : TrackedItem) (hbad : fetch bad.url = none) :
    (checkAllItems fetch ts st (l1 ++ bad :: l2)).1 =
      (checkAllItems fetch ts st (l1 ++ l2)).1
    ∧ (checkAllItems fetch ts st (l1 ++ bad :: l2)).2.1 =
      (checkAllItems fetch ts st (l1 ++ l2)).2.1
    ∧ (checkAllItems fetch ts st (l1 ++ bad :: l2)).2.2 =
      (checkAllItems fetch ts st l1).2.2 ++
        (bad, none) :: (checkAllItems fetch ts
          (checkAllItems fetch ts st l1).1 l2).2.2 := by
  have hstep : ∀ st' : StateMap, checkAllItems fetch ts st' (bad :: l2) =
      ((checkAllItems fetch ts st' l2).1,
       (checkAllItems fetch ts st' l2).2.1,
       (bad, none) :: (checkAllItems fetch ts st' l2).2.2) := by
    intro st'
    simp only [checkAllItems, hbad, stockItemStep, List.nil_append]
  rw [checkAllItems_append fetch ts l1 (bad :: l2) st,
      checkAllItems_append fetch ts l1 l2 st, hstep]
  exact ⟨rfl, rfl, rfl⟩

/-- Witness for `C9_failure_isolation_stock`: three items of which the
middle one's extraction throws. -/
theorem C9_failure_isolation_stock_witness :
    (checkAllItems fetchStockSample "t1" [] [stockItemA, stockItemBad, stockItemC]).1 =
      (checkAllItems fetchStockSample "t1" [] [stockItemA, stockItemC]).1
    ∧ (checkAllItems fetchStockSample "t1" [] [stockItemA, stockItemBad, stockItemC]).2.1 =
      (checkAllItems fetchStockSample "t1" [] [stockItemA, stockItemC]).2.1
    ∧ (checkAllItems fetchStockSample "t1" [] [stockItemA, stockItemBad, stockItemC]).2.2 =
      (checkAllItems fetchStockSample "t1" [] [stockItemA]).2.2 ++
        (stockItemBad, none) :: (checkAllItems fetchStockSample "t1"
          (checkAllItems fetchStockSample "t1" [] [stockItemA]).1 [stockItemC]).2.2 :=
  C9_failure_isolation_stock fetchStockSample "t1" [] [stockItemA] [stockItemC]
    stockItemBad rfl

/-- C10 (confirmed): starting from the initial empty `previousStockState`
map, a single invocation of `checkAllItems` over any list of items with
pairwise-distinct URLs returns an empty alerts array: no URL can have a
recorded `false` state before it is first read, so `wasOutOfStock` never
holds and no back-in-stock alert can be emitted in a fresh run. -/
theorem C10_fresh_state_no_alerts (fetch : String → Option StockStatus)
    (ts : String) (items : List TrackedItem)
    (hnd : (items.map (·.url)).Nodup) :
    (checkAllItems fetch ts [] items).2.1 = [] :=
  checkAllItems_alerts_nil fetch ts items [] hnd
    (fun _ _ => by simp [mapGet, List.find?])

/-- Witness for `C10_fresh_state_no_alerts` at two items with distinct
URLs. -/
theorem C10_fresh_state_no_alerts_witness :
    (checkAllItems fetchStockSample "t1" [] [stockItemA, stockItemC]).2.1 = [] :=
  C10_fresh_state_no_alerts fetchStockSample "t1" [stockItemA, stockItemC]
    (by decide)
